import Mathlib

/-!
Channer: `FFmpeg-Bridging-Header.h`

The repository consists of one C header, `Channer/FFmpeg-Bridging-Header.h`:

```
 1  #ifndef FFmpeg_Bridging_Header_h
 2  #define FFmpeg_Bridging_Header_h
 3
 4  // Include FFmpeg headers
 5  #include <libavcodec/avcodec.h>
 6  #include <libavformat/avformat.h>
 7  #include <libavutil/avutil.h>
 8  #include <libswscale/swscale.h>
 9
10  #endif /* FFmpeg_Bridging_Header_h */
```

The text of the header is embedded verbatim, one string per source line, and
classified into preprocessor lines by `classify`.  The C preprocessor is
embedded as a function on an explicit preprocessor state: a table of
object-like macros, the text emitted so far and the files entered so far.
It covers `#ifndef`, `#ifdef`, `#endif`, `#define` of an object-like macro,
`#undef`, `#include <...>`, `#error`, blank and comment lines, and ordinary
text lines, which are emitted after macro replacement.  Every other form
(`#if`, `#elif`, `#else`, an `#include` with another operand, a function-like
macro, `#pragma`, a block comment or a line that runs on into the next line)
is classified as outside the model: reaching such a line stops processing
with an error, so that no result is ever computed from a guess.

The four FFmpeg headers are not part of the repository.  The header search
path is a parameter of the development, and a header found on it is an
arbitrary function of the preprocessor state at the point of inclusion: it
may fail, define and undefine macros, enter further files and emit text that
depends on the macros in effect.  Concrete search paths are built from header
text with `headerOfText`, which runs the same preprocessor on it.
-/

namespace Channer

/-! ## Data model -/

/-- One logical source line, as the preprocessor classifies it. -/
inductive Line where
  /-- `#ifndef name` -/
  | ifndef (name : String)
  /-- `#ifdef name` -/
  | ifdef (name : String)
  /-- `#endif` (a trailing comment is dropped) -/
  | endif
  /-- `#define name body` (object-like macro; `body` may be empty) -/
  | define (name : String) (body : String)
  /-- `#undef name` -/
  | undef (name : String)
  /-- `#include <path>` -/
  | includeAngle (path : String)
  /-- `#error message` -/
  | error (message : String)
  /-- an empty line -/
  | blank
  /-- a line holding only a `//` comment -/
  | comment (body : String)
  /-- any other line that is not a directive: ordinary program text -/
  | text (body : String)
  /-- `#if`, `#elif`, `#else` and their variants: conditionals outside the model -/
  | unsupportedConditional (line : String)
  /-- any other line outside the model -/
  | unsupported (line : String)
  deriving DecidableEq, Repr

/-- The macro table: the object-like macros currently defined, each with its
replacement text.  A name occurs at most once. -/
abbrev MacroTable := List (String × String)

/-- Preprocessor state of a translation unit at some point of its processing. -/
structure PPState where
  /-- the macros currently defined -/
  macros : MacroTable
  /-- text emitted so far (the declarations visible to the compiler), in order -/
  decls : List String
  /-- paths of the files entered by `#include` so far, in order -/
  included : List String
  deriving DecidableEq, Repr

/-- Diagnostics that make the build fail.  Processing stops at the first. -/
inductive PPError where
  /-- fatal error: file not found, raised by the `#include` line itself -/
  | missingHeader (path : String)
  /-- `#endif` without a matching `#if` -/
  | endifWithoutIf
  /-- unterminated conditional directive at the end of a file -/
  | unterminatedConditional
  /-- an `#error` directive was reached -/
  | errorDirective (message : String)
  /-- a line of a form outside the model was reached -/
  | unsupportedLine (line : String)
  /-- an error raised while processing the included file `path` -/
  | inIncluded (path : String) (cause : PPError)
  deriving DecidableEq, Repr

/-- What the processing of an included file yields: the macro table it leaves
behind, the text it emits and the further files it enters. -/
structure Contribution where
  macros : MacroTable
  decls : List String
  included : List String
  deriving DecidableEq, Repr

/-- A header found on the search path: its processing, as a function of the
preprocessor state at the point where it is included. -/
abbrev HeaderFile := PPState → Except PPError Contribution

/-- The header search path of a build: the file found for an `#include <path>`,
or `none` when no directory of the search path holds it. -/
abbrev SearchPath := String → Option HeaderFile

/-! ## The header -/

/-- The include-guard macro of the header (lines 1, 2 and 10). -/
def FFmpeg_Bridging_Header_h : String := "FFmpeg_Bridging_Header_h"

/-- The four `#include` operands of lines 5 to 8, in source order. -/
def ffmpegHeaders : List String :=
  ["libavcodec/avcodec.h", "libavformat/avformat.h", "libavutil/avutil.h",
   "libswscale/swscale.h"]

/-- The text of `Channer/FFmpeg-Bridging-Header.h`, one string per source
line (ten lines). -/
def headerSource : List String :=
  [ "#ifndef FFmpeg_Bridging_Header_h",
    "#define FFmpeg_Bridging_Header_h",
    "",
    "// Include FFmpeg headers",
    "#include <libavcodec/avcodec.h>",
    "#include <libavformat/avformat.h>",
    "#include <libavutil/avutil.h>",
    "#include <libswscale/swscale.h>",
    "",
    "#endif /* FFmpeg_Bridging_Header_h */" ]

/-! ## Tokens and macro replacement -/

/-- A preprocessing token of a text line, coarsely: an identifier, or any
other piece of text that macro replacement leaves alone (a number, a string
or character literal, a punctuator, white space). -/
inductive Tok where
  | ident (name : String)
  | other (chars : String)
  deriving DecidableEq, Repr

/-- Where the lexer stands inside a line. -/
inductive LexMode where
  /-- between tokens -/
  | code
  /-- inside an identifier -/
  | ident
  /-- inside a number -/
  | number
  /-- inside a string or character literal closed by `q` -/
  | lit (q : Char)
  /-- inside such a literal, right after a backslash -/
  | litEscape (q : Char)
  /-- after a `/` that may open a comment -/
  | slash
  /-- inside a block comment -/
  | block
  /-- inside a block comment, right after a `*` -/
  | blockStar
  /-- inside a `//` comment -/
  | lineComment
  deriving DecidableEq, Repr

/-- Characters of a C identifier. -/
def isIdentChar (c : Char) : Bool := c.isAlphanum || c = '_'

/-- The double quote and the single quote, which open literals. -/
def isQuote (c : Char) : Bool := c = Char.ofNat 34 || c = Char.ofNat 39

/-- The backslash. -/
def isBackslash (c : Char) : Bool := c = Char.ofNat 92

/-- The token that a pending run of characters `acc` (in reverse) forms when
it ends in mode `m`. -/
def flush (m : LexMode) (acc : List Char) : List Tok :=
  match m with
  | .ident => [.ident (String.mk acc.reverse)]
  | .number => [.other (String.mk acc.reverse)]
  | .lit _ => [.other (String.mk acc.reverse)]
  | .litEscape _ => [.other (String.mk acc.reverse)]
  | .slash => [.other "/"]
  | _ => []

/-- Start a token at character `c`: the new mode and pending characters, and
the tokens completed at once. -/
def startTok (c : Char) : LexMode × List Char × List Tok :=
  if c.isDigit then (.number, [c], [])
  else if isIdentChar c then (.ident, [c], [])
  else if isQuote c then (.lit c, [c], [])
  else if c = '/' then (.slash, [], [])
  else (.code, [], [.other (String.singleton c)])

/-- Split the characters of a line into tokens.  A comment becomes one blank;
the result also tells the mode in which the line ends. -/
def lexFrom : LexMode → List Char → List Char → List Tok × LexMode
  | m, acc, [] => (flush m acc, m)
  | m, acc, c :: cs =>
    let continueWith (r : LexMode × List Char × List Tok) : List Tok × LexMode :=
      let rest := lexFrom r.1 r.2.1 cs
      (r.2.2 ++ rest.1, rest.2)
    match m with
    | .code => continueWith (startTok c)
    | .ident =>
      if isIdentChar c then lexFrom .ident (c :: acc) cs
      else
        let r := startTok c
        continueWith (r.1, r.2.1, flush .ident acc ++ r.2.2)
    | .number =>
      if isIdentChar c || c = '.' then lexFrom .number (c :: acc) cs
      else
        let r := startTok c
        continueWith (r.1, r.2.1, flush .number acc ++ r.2.2)
    | .lit q =>
      if isBackslash c then lexFrom (.litEscape q) (c :: acc) cs
      else if c = q then continueWith (.code, [], flush (.lit q) (c :: acc))
      else lexFrom (.lit q) (c :: acc) cs
    | .litEscape q => lexFrom (.lit q) (c :: acc) cs
    | .slash =>
      if c = '/' then lexFrom .lineComment [] cs
      else if c = '*' then lexFrom .block [] cs
      else
        let r := startTok c
        continueWith (r.1, r.2.1, flush .slash [] ++ r.2.2)
    | .block => if c = '*' then lexFrom .blockStar [] cs else lexFrom .block [] cs
    | .blockStar =>
      if c = '/' then continueWith (.code, [], [.other " "])
      else if c = '*' then lexFrom .blockStar [] cs
      else lexFrom .block [] cs
    | .lineComment => lexFrom .lineComment [] cs

/-- The tokens of a line of text. -/
def lex (t : String) : List Tok := (lexFrom .code [] t.toList).1

/-- Whether a line ends inside a block comment, which then runs on into the
next line. -/
def endsInComment (t : String) : Bool :=
  match (lexFrom .code [] t.toList).2 with
  | .block => true
  | .blockStar => true
  | _ => false

/-- Whether a line ends in a backslash, which splices it with the next line. -/
def endsInBackslash (cs : List Char) : Bool :=
  match cs.getLast? with
  | some c => isBackslash c
  | none => false

/-- Whether `name` is defined in the macro table. -/
def isDefined (ms : MacroTable) (name : String) : Bool := ms.any (fun e => e.1 == name)

/-- The replacement text of `name`, when it is defined. -/
def replacementOf (ms : MacroTable) (name : String) : Option String :=
  (ms.find? (fun e => e.1 == name)).map Prod.snd

/-- The table after `#define name body`: an earlier definition of `name` is
replaced. -/
def defineMacro (ms : MacroTable) (name body : String) : MacroTable :=
  ms.filter (fun e => e.1 != name) ++ [(name, body)]

/-- The table after `#undef name`. -/
def undefMacro (ms : MacroTable) (name : String) : MacroTable :=
  ms.filter (fun e => e.1 != name)

/-- Macro replacement on a token list.  An identifier that names a macro is
replaced by the replacement of its replacement text, in which the macro itself
(every name in `hide`) is not replaced again.  `depth` bounds the nesting of
replacements; the number of macros in the table is always enough, since each
level hides one more of them. -/
def expandToks (ms : MacroTable) : Nat → List String → List Tok → List Char
  | 0, _, toks =>
    toks.flatMap fun t =>
      match t with
      | .ident x => x.toList
      | .other s => s.toList
  | depth + 1, hide, toks =>
    toks.flatMap fun t =>
      match t with
      | .other s => s.toList
      | .ident x =>
        if hide.contains x then x.toList
        else
          match replacementOf ms x with
          | none => x.toList
          | some body => expandToks ms depth (x :: hide) (lex body)

/-- A line of text after macro replacement. -/
def expandLine (ms : MacroTable) (t : String) : String :=
  String.mk (expandToks ms ms.length [] (lex t))

/-! ## Line classification -/

/-- Skip leading spaces and tabs. -/
def dropBlanks : List Char → List Char
  | [] => []
  | c :: cs => if c = ' ' ∨ c = '\t' then dropBlanks cs else c :: cs

/-- The identifier at the start of the input. -/
def takeIdent : List Char → List Char
  | [] => []
  | c :: cs => if isIdentChar c then c :: takeIdent cs else []

/-- The input after the identifier at its start. -/
def dropIdent : List Char → List Char
  | [] => []
  | c :: cs => if isIdentChar c then dropIdent cs else c :: cs

/-- The characters up to, not including, the closing `>` of an include operand. -/
def takeUntilClose : List Char → List Char
  | [] => []
  | c :: cs => if c = '>' then [] else c :: takeUntilClose cs

/-- The replacement text of a `#define` line: what follows the macro name,
without comments and without the white space around it. -/
def replacementText (after : List Char) : String :=
  let body := dropBlanks (expandToks [] 0 [] (lex (String.mk after)))
  String.mk (dropBlanks body.reverse).reverse

/-- Classify a directive line from the characters after its `#`. -/
def classifyDirective (whole : String) (afterHash : List Char) : Line :=
  let rest := dropBlanks afterHash
  let name := String.mk (takeIdent rest)
  let arg := dropBlanks (dropIdent rest)
  if name = "ifndef" then .ifndef (String.mk (takeIdent arg))
  else if name = "ifdef" then .ifdef (String.mk (takeIdent arg))
  else if name = "endif" then .endif
  else if name = "define" then
    match takeIdent arg, dropIdent arg with
    | [], _ => .unsupported whole
    | _, '(' :: _ => .unsupported whole
    | macroName, after => .define (String.mk macroName) (replacementText after)
  else if name = "undef" then .undef (String.mk (takeIdent arg))
  else if name = "include" then
    match arg with
    | '<' :: operand => .includeAngle (String.mk (takeUntilClose operand))
    | _ => .unsupported whole
  else if name = "error" then .error (String.mk arg)
  else if name = "if" ∨ name = "elif" ∨ name = "else" ∨ name = "elifdef"
      ∨ name = "elifndef" then .unsupportedConditional whole
  else .unsupported whole

/-- Classify one source line. -/
def classify (line : String) : Line :=
  if endsInBackslash line.toList || endsInComment line then .unsupported line
  else
    match dropBlanks line.toList with
    | [] => .blank
    | '#' :: rest => classifyDirective line rest
    | '/' :: '/' :: body => .comment (String.mk body)
    | _ => .text line

/-- The lines of a file, classified. -/
def parseFile (src : List String) : List Line := src.map classify

/-- The file `Channer/FFmpeg-Bridging-Header.h` as the preprocessor reads it. -/
def bridgingHeader : List Line := parseFile headerSource

/-- Whether the current line is in a group that is being processed: every
enclosing conditional group was entered. -/
def active (conds : List Bool) : Bool := conds.all id

/-- The state after the included file `p` has been processed with result `c`
from state `s`: the file is recorded, its text follows the text so far, and
the macro table is the one it leaves. -/
def enter (s : PPState) (p : String) (c : Contribution) : PPState :=
  { macros := c.macros,
    decls := s.decls ++ c.decls,
    included := s.included ++ p :: c.included }

/-- An `#include <p>` line in a group that is being processed: a missing
file is a fatal error of the line itself; a file that is found is processed
in the current state, and an error raised inside it is reported as such. -/
def includeHeader (env : SearchPath) (p : String) (s : PPState) : Except PPError PPState :=
  match env p with
  | none => .error (.missingHeader p)
  | some f =>
    match f s with
    | .error e => .error (.inIncluded p e)
    | .ok c => .ok (enter s p c)

/-- A text line in a group that is being processed: it is emitted after macro
replacement, unless nothing but white space is left of it. -/
def emitText (s : PPState) (t : String) : PPState :=
  let out := expandLine s.macros t
  if (dropBlanks out.toList).isEmpty then s else { s with decls := s.decls ++ [out] }

/-- Process one line.  `conds` is the stack of open conditional groups of the
current file, innermost first; an entry is `true` when that group's condition
held. -/
def step (env : SearchPath) (st : PPState × List Bool) (l : Line) :
    Except PPError (PPState × List Bool) :=
  let s := st.1
  let conds := st.2
  match l with
  | .ifndef m => .ok (s, (!isDefined s.macros m) :: conds)
  | .ifdef m => .ok (s, isDefined s.macros m :: conds)
  | .endif =>
    match conds with
    | [] => .error .endifWithoutIf
    | _ :: rest => .ok (s, rest)
  | .unsupportedConditional t => .error (.unsupportedLine t)
  | .define m body =>
    if active conds then .ok ({ s with macros := defineMacro s.macros m body }, conds)
    else .ok (s, conds)
  | .undef m =>
    if active conds then .ok ({ s with macros := undefMacro s.macros m }, conds)
    else .ok (s, conds)
  | .includeAngle p =>
    if active conds then
      match includeHeader env p s with
      | .error e => .error e
      | .ok s' => .ok (s', conds)
    else .ok (s, conds)
  | .error msg =>
    if active conds then .error (.errorDirective msg) else .ok (s, conds)
  | .blank => .ok (s, conds)
  | .comment _ => .ok (s, conds)
  | .text t =>
    if active conds then .ok (emitText s t, conds) else .ok (s, conds)
  | .unsupported t =>
    if active conds then .error (.unsupportedLine t) else .ok (s, conds)

/-- Process the lines of a file in order, stopping at the first error. -/
def processLines (env : SearchPath) :
    List Line → PPState × List Bool → Except PPError (PPState × List Bool)
  | [], st => .ok st
  | l :: ls, st =>
    match step env st l with
    | .error e => .error e
    | .ok st' => processLines env ls st'

/-- Process a whole file at the point where it is included: its conditional
groups start from the empty stack and must all be closed at its end. -/
def processFile (env : SearchPath) (file : List Line) (s : PPState) :
    Except PPError PPState :=
  match processLines env file (s, []) with
  | .error e => .error e
  | .ok (s', []) => .ok s'
  | .ok (_, _ :: _) => .error .unterminatedConditional

/-- Process the bridging header at the point where it is included. -/
def includeBridgingHeader (env : SearchPath) (s : PPState) : Except PPError PPState :=
  processFile env bridgingHeader s

/-- The header found on the search path whose text is `src`, with its own
includes resolved on `env`. -/
def headerOfText (env : SearchPath) (src : List String) : HeaderFile := fun s =>
  match processFile env (parseFile src) s with
  | .error e => .error e
  | .ok s' =>
    .ok { macros := s'.macros,
          decls := s'.decls.drop s.decls.length,
          included := s'.included.drop s.included.length }

/-- The state handed to the first included header on a first inclusion: the
guard macro has been defined, with an empty replacement text. -/
def withGuard (s : PPState) : PPState :=
  { s with macros := defineMacro s.macros FFmpeg_Bridging_Header_h "" }

/-- A run of `#include <p>` lines, one for each path in order, stopping at the
first error. -/
def includeAll (env : SearchPath) : List String → PPState → Except PPError PPState
  | [], s => .ok s
  | p :: ps, s =>
    match includeHeader env p s with
    | .error e => .error e
    | .ok s' => includeAll env ps s'

/-! ## Concrete inputs -/

/-- A translation unit at its start: nothing defined, emitted or included. -/
def emptyState : PPState := { macros := [], decls := [], included := [] }

/-- A state in which the guard macro is already defined, as after
`-DFFmpeg_Bridging_Header_h=` on the compiler command line. -/
def guardDefinedState : PPState :=
  { macros := [("FFmpeg_Bridging_Header_h", "")], decls := [], included := [] }

/-- A search path that holds no header at all. -/
def emptySearchPath : SearchPath := fun _ => none

/-- Sample text standing in for `libavutil/avutil.h`. -/
def avutilText : List String :=
  [ "#ifndef AVUTIL_AVUTIL_H",
    "#define AVUTIL_AVUTIL_H",
    "typedef struct AVRational AVRational;",
    "#endif /* AVUTIL_AVUTIL_H */" ]

/-- Sample text standing in for `libavcodec/avcodec.h`; it includes
`libavutil/avutil.h` itself. -/
def avcodecText : List String :=
  [ "#ifndef AVCODEC_AVCODEC_H",
    "#define AVCODEC_AVCODEC_H",
    "#include <libavutil/avutil.h>",
    "typedef struct AVCodecContext AVCodecContext;",
    "#endif /* AVCODEC_AVCODEC_H */" ]

/-- Sample text standing in for `libavformat/avformat.h`. -/
def avformatText : List String :=
  [ "#ifndef AVFORMAT_AVFORMAT_H",
    "#define AVFORMAT_AVFORMAT_H",
    "typedef struct AVFormatContext AVFormatContext;",
    "#endif /* AVFORMAT_AVFORMAT_H */" ]

/-- Sample text standing in for `libswscale/swscale.h`. -/
def swscaleText : List String :=
  [ "#ifndef SWSCALE_SWSCALE_H",
    "#define SWSCALE_SWSCALE_H",
    "struct SwsContext;",
    "#endif /* SWSCALE_SWSCALE_H */" ]

/-- The search path as seen from inside the sample headers: it holds
`libavutil/avutil.h`. -/
def innerSearchPath : SearchPath := fun p =>
  if p = "libavutil/avutil.h" then some (headerOfText emptySearchPath avutilText)
  else none

/-- A search path on which the four FFmpeg headers are found, with the sample
texts. -/
def sampleSearchPath : SearchPath := fun p =>
  if p = "libavcodec/avcodec.h" then some (headerOfText innerSearchPath avcodecText)
  else if p = "libavformat/avformat.h" then some (headerOfText emptySearchPath avformatText)
  else if p = "libavutil/avutil.h" then some (headerOfText emptySearchPath avutilText)
  else if p = "libswscale/swscale.h" then some (headerOfText emptySearchPath swscaleText)
  else none

/-- The state after the header is first included from `emptyState` under
`sampleSearchPath`. -/
def sampleAfter : PPState :=
  { macros := [("FFmpeg_Bridging_Header_h", ""), ("AVCODEC_AVCODEC_H", ""),
      ("AVUTIL_AVUTIL_H", ""), ("AVFORMAT_AVFORMAT_H", ""), ("SWSCALE_SWSCALE_H", "")],
    decls := ["typedef struct AVRational AVRational;",
      "typedef struct AVCodecContext AVCodecContext;",
      "typedef struct AVFormatContext AVFormatContext;", "struct SwsContext;"],
    included := ["libavcodec/avcodec.h", "libavutil/avutil.h", "libavformat/avformat.h",
      "libavutil/avutil.h", "libswscale/swscale.h"] }

/-- Lines that follow the first inclusion in a sample translation unit: a
declaration, then an open conditional group that defines a macro. -/
def sampleMid : List Line := parseFile ["int x;", "#ifndef X", "#define X 1"]

/-- The state reached from `sampleAfter` by `sampleMid`. -/
def sampleLater : PPState :=
  { sampleAfter with
    macros := sampleAfter.macros ++ [("X", "1")],
    decls := sampleAfter.decls ++ ["int x;"] }

/-- The state reached from `sampleAfter` by the line
`#undef FFmpeg_Bridging_Header_h`. -/
def sampleUndefined : PPState :=
  { sampleAfter with
    macros := [("AVCODEC_AVCODEC_H", ""), ("AVUTIL_AVUTIL_H", ""),
      ("AVFORMAT_AVFORMAT_H", ""), ("SWSCALE_SWSCALE_H", "")] }

/-- A search path on which `libavutil/avutil.h` declares a variable that is
named like the guard macro of the bridging header. -/
def clashSearchPath : SearchPath := fun p =>
  if p = "libavutil/avutil.h" then
    some (headerOfText emptySearchPath ["extern int FFmpeg_Bridging_Header_h;"])
  else sampleSearchPath p

/-- Text for `libavcodec/avcodec.h` that includes a file which is not
installed. -/
def brokenAvcodecText : List String :=
  [ "#ifndef AVCODEC_AVCODEC_H",
    "#define AVCODEC_AVCODEC_H",
    "#include <libavutil/samplefmt.h>",
    "typedef struct AVCodecContext AVCodecContext;",
    "#endif /* AVCODEC_AVCODEC_H */" ]

/-- A search path on which all four headers are found and
`libavcodec/avcodec.h` includes a file that is missing. -/
def failingSearchPath : SearchPath := fun p =>
  if p = "libavcodec/avcodec.h" then some (headerOfText innerSearchPath brokenAvcodecText)
  else sampleSearchPath p

/-! ## The header, classified -/

/-- The ten lines of the header are classified as: the guard test, the guard
definition with an empty replacement text, a blank, a comment, the four
includes, a blank, the closing `#endif`. -/
theorem bridgingHeader_lines :
    bridgingHeader =
      [ Line.ifndef "FFmpeg_Bridging_Header_h",
        Line.define "FFmpeg_Bridging_Header_h" "",
        Line.blank,
        Line.comment " Include FFmpeg headers",
        Line.includeAngle "libavcodec/avcodec.h",
        Line.includeAngle "libavformat/avformat.h",
        Line.includeAngle "libavutil/avutil.h",
        Line.includeAngle "libswscale/swscale.h",
        Line.blank,
        Line.endif ] := by
  decide

/-! ## The macro table -/

/-- Removing the entries of `x` removes exactly the definition of `x`. -/
theorem isDefined_filter (ms : MacroTable) (x m : String) :
    isDefined (ms.filter (fun e => e.1 != x)) m = (isDefined ms m && (m != x)) := by
  rw [Bool.eq_iff_iff]
  simp only [isDefined, List.any_eq_true, List.mem_filter, Bool.and_eq_true, bne_iff_ne,
    beq_iff_eq, ne_eq]
  constructor
  · rintro ⟨e, ⟨he, hx⟩, hm⟩
    exact ⟨⟨e, he, hm⟩, fun h => hx (hm.trans h)⟩
  · rintro ⟨⟨e, he, hm⟩, hx⟩
    exact ⟨e, ⟨he, fun h => hx (hm.symm.trans h)⟩, hm⟩

/-- Undefining a name that is not defined leaves the table as it is. -/
theorem filter_of_not_defined (ms : MacroTable) (x : String)
    (h : isDefined ms x = false) : ms.filter (fun e => e.1 != x) = ms := by
  induction ms with
  | nil => rfl
  | cons e ms ih =>
    simp only [isDefined, List.any_cons, Bool.or_eq_false_iff] at h
    have h1 : (e.1 != x) = true := by simpa using h.1
    simp only [List.filter_cons, h1, if_true]
    rw [ih (by simpa [isDefined] using h.2)]

/-- Definedness in a table extended at its end. -/
theorem isDefined_append (ms ns : MacroTable) (m : String) :
    isDefined (ms ++ ns) m = (isDefined ms m || isDefined ns m) := by
  simp [isDefined]

/-- After `#define x`, `m` is defined when it is `x` or was defined before. -/
theorem isDefined_defineMacro (ms : MacroTable) (x b m : String) :
    isDefined (defineMacro ms x b) m = (isDefined ms m || (m == x)) := by
  rw [defineMacro, isDefined_append, isDefined_filter]
  by_cases hm : m = x
  · subst hm; simp [isDefined]
  · have h1 : (m != x) = true := by simpa using hm
    have h2 : (x == m) = false := by simpa using fun h => hm h.symm
    have h3 : (m == x) = false := by simpa using hm
    simp [isDefined, h1, h2, h3]

/-- After `#undef x`, `m` is defined when it is not `x` and was defined before. -/
theorem isDefined_undefMacro (ms : MacroTable) (x m : String) :
    isDefined (undefMacro ms x) m = (isDefined ms m && (m != x)) := by
  rw [undefMacro, isDefined_filter]

/-- On a first inclusion the guard is added at the end of the macro table,
with an empty replacement text, and nothing else changes. -/
theorem withGuard_of_not_defined (s : PPState)
    (hg : isDefined s.macros FFmpeg_Bridging_Header_h = false) :
    withGuard s = { s with macros := s.macros ++ [(FFmpeg_Bridging_Header_h, "")] } := by
  simp [withGuard, defineMacro, filter_of_not_defined s.macros _ hg]

/-- The guard is defined in the state handed to the included headers. -/
theorem withGuard_defined (s : PPState) :
    isDefined (withGuard s).macros FFmpeg_Bridging_Header_h = true := by
  simp [withGuard, isDefined_defineMacro]

/-! ## Processing the header -/

/-- With the guard macro already defined, the whole body is skipped: the
state is returned as it was, whatever the search path holds. -/
theorem include_guard_defined (env : SearchPath) (s : PPState)
    (hg : isDefined s.macros FFmpeg_Bridging_Header_h = true) :
    includeBridgingHeader env s = .ok s := by
  have hg2 : isDefined s.macros "FFmpeg_Bridging_Header_h" = true := hg
  rw [includeBridgingHeader, bridgingHeader_lines]
  simp [processFile, processLines, step, active, hg2]

/-- An `#include` line at the head of a run of lines, inside one entered
group. -/
theorem processLines_include (env : SearchPath) (p : String) (ls : List Line)
    (s0 : PPState) :
    processLines env (Line.includeAngle p :: ls) (s0, [true]) =
      match includeHeader env p s0 with
      | .error e => .error e
      | .ok s' => processLines env ls (s', [true]) := by
  simp only [processLines, step, active, List.all_cons, List.all_nil, id, Bool.and_true,
    if_true]
  cases includeHeader env p s0 <;> rfl

/-- A run of `#include` lines followed by a blank line and the `#endif` that
closes the one entered group. -/
theorem processLines_includes (env : SearchPath) (ps : List String) :
    ∀ s0 : PPState,
      processLines env (ps.map Line.includeAngle ++ [Line.blank, Line.endif]) (s0, [true]) =
        match includeAll env ps s0 with
        | .error e => .error e
        | .ok s' => .ok (s', []) := by
  induction ps with
  | nil => intro s0; rfl
  | cons p ps ih =>
    intro s0
    rw [List.map_cons, List.cons_append, processLines_include]
    simp only [includeAll]
    cases includeHeader env p s0 with
    | error e => rfl
    | ok s1 => exact ih s1

/-- A file of the shape of the header (guard test, guard definition, a blank,
a comment, `#include` lines, a blank, `#endif`), read with the guard macro
not yet defined: the guard is defined and the `#include` lines are processed
in order, stopping at the first error. -/
theorem guarded_includes (env : SearchPath) (ps : List String) (c : String) (s : PPState)
    (hg : isDefined s.macros FFmpeg_Bridging_Header_h = false) :
    processFile env
        ( Line.ifndef "FFmpeg_Bridging_Header_h" :: Line.define "FFmpeg_Bridging_Header_h" ""
          :: Line.blank :: Line.comment c
          :: (ps.map Line.includeAngle ++ [Line.blank, Line.endif])) s =
      includeAll env ps (withGuard s) := by
  have hg2 : isDefined s.macros "FFmpeg_Bridging_Header_h" = false := hg
  have hhead : ∀ ls, processLines env
      ( Line.ifndef "FFmpeg_Bridging_Header_h" :: Line.define "FFmpeg_Bridging_Header_h" ""
        :: Line.blank :: Line.comment c :: ls) (s, [])
      = processLines env ls (withGuard s, [true]) := by
    intro ls
    simp only [processLines, step, active, hg2, Bool.not_false, List.all_cons, List.all_nil,
      id, Bool.and_true, if_true]
    rfl
  rw [processFile, hhead, processLines_includes]
  cases includeAll env ps (withGuard s) <;> rfl

/-- With the guard macro not yet defined, the header defines it and then
processes the four `#include` lines in source order, stopping at the first
error. -/
theorem include_guard_undefined (env : SearchPath) (s : PPState)
    (hg : isDefined s.macros FFmpeg_Bridging_Header_h = false) :
    includeBridgingHeader env s = includeAll env ffmpegHeaders (withGuard s) := by
  rw [includeBridgingHeader, bridgingHeader_lines]
  exact guarded_includes env ffmpegHeaders " Include FFmpeg headers" s hg

/-- An `#include` line fails either because the file is not found, or because
the file that was found fails. -/
theorem includeHeader_error (env : SearchPath) (p : String) (s : PPState) (e : PPError)
    (h : includeHeader env p s = .error e) :
    (e = .missingHeader p ∧ env p = none) ∨
      ∃ f cause, env p = some f ∧ f s = .error cause ∧ e = .inIncluded p cause := by
  unfold includeHeader at h
  cases hp : env p with
  | none =>
    simp only [hp] at h
    cases h
    exact Or.inl ⟨rfl, rfl⟩
  | some f =>
    simp only [hp] at h
    cases hf : f s with
    | error cause =>
      simp only [hf] at h
      cases h
      exact Or.inr ⟨f, cause, rfl, hf, rfl⟩
    | ok c => simp [hf] at h

/-- An `#include` line that succeeds found its file, and the file was
processed in the current state. -/
theorem includeHeader_ok (env : SearchPath) (p : String) (s s' : PPState)
    (h : includeHeader env p s = .ok s') :
    ∃ f c, env p = some f ∧ f s = .ok c ∧ s' = enter s p c := by
  unfold includeHeader at h
  cases hp : env p with
  | none => simp [hp] at h
  | some f =>
    simp only [hp] at h
    cases hf : f s with
    | error cause => simp [hf] at h
    | ok c =>
      simp only [hf] at h
      cases h
      exact ⟨f, c, rfl, hf, rfl⟩

/-- A run of `#include` lines that fails stopped at one of its lines, for one
of the two reasons. -/
theorem includeAll_error (env : SearchPath) (ps : List String) :
    ∀ (s : PPState) (e : PPError), includeAll env ps s = .error e →
      ∃ p ∈ ps, (e = .missingHeader p ∧ env p = none) ∨
        ∃ f t cause, env p = some f ∧ f t = .error cause ∧ e = .inIncluded p cause := by
  induction ps with
  | nil => intro s e h; simp [includeAll] at h
  | cons p ps ih =>
    intro s e h
    simp only [includeAll] at h
    cases h1 : includeHeader env p s with
    | error e1 =>
      simp only [h1] at h
      cases h
      rcases includeHeader_error env p s e h1 with hm | ⟨f, cause, hf, hfail, he⟩
      · exact ⟨p, List.mem_cons_self _ _, Or.inl hm⟩
      · exact ⟨p, List.mem_cons_self _ _, Or.inr ⟨f, s, cause, hf, hfail, he⟩⟩
    | ok s1 =>
      simp only [h1] at h
      obtain ⟨q, hq, hcase⟩ := ih s1 e h
      exact ⟨q, List.mem_cons_of_mem _ hq, hcase⟩

/-- A run of `#include` lines fails when one of its files is not found. -/
theorem includeAll_of_missing (env : SearchPath) (ps : List String) :
    ∀ (s : PPState), (∃ p ∈ ps, env p = none) → ∃ e, includeAll env ps s = .error e := by
  induction ps with
  | nil => intro s h; simp at h
  | cons p ps ih =>
    intro s h
    simp only [includeAll]
    cases h1 : includeHeader env p s with
    | error e1 => exact ⟨e1, rfl⟩
    | ok s1 =>
      obtain ⟨f, c, hf, _, _⟩ := includeHeader_ok env p s s1 h1
      obtain ⟨q, hq, hnone⟩ := h
      rcases List.mem_cons.1 hq with rfl | hq
      · rw [hf] at hnone; cases hnone
      · exact ih s1 ⟨q, hq, hnone⟩

/-- A run of `#include` lines succeeds when every file is found and every
file found is processed without error. -/
theorem includeAll_ok_of_found (env : SearchPath) (ps : List String)
    (hfound : ∀ p ∈ ps, ∃ f, env p = some f ∧ ∀ t, ∃ c, f t = .ok c) :
    ∀ (s : PPState), ∃ s', includeAll env ps s = .ok s' := by
  induction ps with
  | nil => intro s; exact ⟨s, rfl⟩
  | cons p ps ih =>
    intro s
    obtain ⟨f, hf, hok⟩ := hfound p (List.mem_cons_self _ _)
    obtain ⟨c, hc⟩ := hok s
    have h1 : includeHeader env p s = .ok (enter s p c) := by
      simp [includeHeader, hf, hc]
    simp only [includeAll, h1]
    exact ih (fun q hq => hfound q (List.mem_cons_of_mem _ hq)) (enter s p c)

/-- What a successful run of `#include` lines adds: the text so far and the
files so far are kept and extended, each new piece of text is emitted by one
of the files, each new file is one of the files or entered by one of them,
and a macro has another replacement text afterwards only if one of the files
changed it. -/
theorem includeAll_frame (env : SearchPath) (ps : List String) :
    ∀ (s s' : PPState), includeAll env ps s = .ok s' →
      ∃ newDecls newFiles,
        s'.decls = s.decls ++ newDecls ∧
        s'.included = s.included ++ newFiles ∧
        (∀ d ∈ newDecls, ∃ p ∈ ps, ∃ f t c, env p = some f ∧ f t = .ok c ∧ d ∈ c.decls) ∧
        (∀ q ∈ newFiles, q ∈ ps ∨
          ∃ p ∈ ps, ∃ f t c, env p = some f ∧ f t = .ok c ∧ q ∈ c.included) ∧
        (∀ m, replacementOf s'.macros m = replacementOf s.macros m ∨
          ∃ p ∈ ps, ∃ f t c, env p = some f ∧ f t = .ok c ∧
            replacementOf c.macros m ≠ replacementOf t.macros m) := by
  induction ps with
  | nil =>
    intro s s' h
    simp only [includeAll, Except.ok.injEq] at h
    subst h
    exact ⟨[], [], by simp, by simp, by simp, by simp, fun m => Or.inl rfl⟩
  | cons p ps ih =>
    intro s s' h
    simp only [includeAll] at h
    cases h1 : includeHeader env p s with
    | error e1 => simp [h1] at h
    | ok s1 =>
      simp only [h1] at h
      obtain ⟨f, c, hf, hc, hs1⟩ := includeHeader_ok env p s s1 h1
      obtain ⟨nd, nf, hd, hi, hdsrc, hisrc, hmac⟩ := ih s1 s' h
      subst hs1
      refine ⟨c.decls ++ nd, p :: c.included ++ nf, ?_, ?_, ?_, ?_, ?_⟩
      · simp [hd, enter]
      · simp [hi, enter]
      · intro d hdmem
        rcases List.mem_append.1 hdmem with hdc | hdn
        · exact ⟨p, List.mem_cons_self _ _, f, s, c, hf, hc, hdc⟩
        · obtain ⟨q, hq, rest⟩ := hdsrc d hdn
          exact ⟨q, List.mem_cons_of_mem _ hq, rest⟩
      · intro q hqmem
        rcases List.mem_append.1 hqmem with hqc | hqn
        · rcases List.mem_cons.1 hqc with rfl | hqc
          · exact Or.inl (List.mem_cons_self _ _)
          · exact Or.inr ⟨p, List.mem_cons_self _ _, f, s, c, hf, hc, hqc⟩
        · rcases hisrc q hqn with hq | ⟨r, hr, rest⟩
          · exact Or.inl (List.mem_cons_of_mem _ hq)
          · exact Or.inr ⟨r, List.mem_cons_of_mem _ hr, rest⟩
      · intro m
        rcases hmac m with heq | ⟨r, hr, rest⟩
        · by_cases hch : replacementOf c.macros m = replacementOf s.macros m
          · exact Or.inl (heq.trans hch)
          · exact Or.inr ⟨p, List.mem_cons_self _ _, f, s, c, hf, hc, hch⟩
        · exact Or.inr ⟨r, List.mem_cons_of_mem _ hr, rest⟩

/-- A run of `#include` lines leaves the guard defined when no file found on
the search path undefines it. -/
theorem includeAll_keeps_guard (env : SearchPath) (ps : List String)
    (hkeep : ∀ p f t c, env p = some f → f t = .ok c →
      isDefined t.macros FFmpeg_Bridging_Header_h = true →
      isDefined c.macros FFmpeg_Bridging_Header_h = true) :
    ∀ (s s' : PPState), includeAll env ps s = .ok s' →
      isDefined s.macros FFmpeg_Bridging_Header_h = true →
      isDefined s'.macros FFmpeg_Bridging_Header_h = true := by
  induction ps with
  | nil =>
    intro s s' h hg
    simp only [includeAll, Except.ok.injEq] at h
    subst h
    exact hg
  | cons p ps ih =>
    intro s s' h hg
    simp only [includeAll] at h
    cases h1 : includeHeader env p s with
    | error e1 => simp [h1] at h
    | ok s1 =>
      simp only [h1] at h
      obtain ⟨f, c, hf, hc, hs1⟩ := includeHeader_ok env p s s1 h1
      apply ih s1 s' h
      rw [hs1]
      exact hkeep p f s c hf hc hg

/-- One line leaves the guard defined, unless it is
`#undef FFmpeg_Bridging_Header_h` or includes a file that undefines it. -/
theorem step_keeps_guard (env : SearchPath)
    (hkeep : ∀ p f t c, env p = some f → f t = .ok c →
      isDefined t.macros FFmpeg_Bridging_Header_h = true →
      isDefined c.macros FFmpeg_Bridging_Header_h = true)
    (l : Line) (hl : l ≠ Line.undef FFmpeg_Bridging_Header_h)
    (st st' : PPState × List Bool) (h : step env st l = .ok st')
    (hg : isDefined st.1.macros FFmpeg_Bridging_Header_h = true) :
    isDefined st'.1.macros FFmpeg_Bridging_Header_h = true := by
  cases l with
  | ifndef n => simp [step] at h; subst h; exact hg
  | ifdef n => simp [step] at h; subst h; exact hg
  | endif =>
    simp only [step] at h
    split at h
    · cases h
    · cases h; exact hg
  | define n b =>
    simp only [step] at h
    split at h
    · cases h
      simp [isDefined_defineMacro, hg]
    · cases h; exact hg
  | undef n =>
    simp only [step] at h
    split at h
    · cases h
      have hn : FFmpeg_Bridging_Header_h ≠ n := fun hn => hl (by rw [hn])
      simp [isDefined_undefMacro, hg, hn]
    · cases h; exact hg
  | includeAngle p =>
    simp only [step] at h
    split at h
    · cases h1 : includeHeader env p st.1 with
      | error e1 => simp [h1] at h
      | ok s1 =>
        simp only [h1] at h
        cases h
        obtain ⟨f, c, hf, hc, hs1⟩ := includeHeader_ok env p st.1 s1 h1
        rw [hs1]
        exact hkeep p f st.1 c hf hc hg
    · cases h; exact hg
  | error msg =>
    simp only [step] at h
    split at h
    · cases h
    · cases h; exact hg
  | blank => simp [step] at h; subst h; exact hg
  | comment c => simp [step] at h; subst h; exact hg
  | text t =>
    simp only [step] at h
    split at h
    · cases h
      simp only [emitText]
      split <;> exact hg
    · cases h; exact hg
  | unsupportedConditional t => simp [step] at h
  | unsupported t =>
    simp only [step] at h
    split at h
    · cases h
    · cases h; exact hg

/-- A run of lines leaves the guard defined, unless one of them is
`#undef FFmpeg_Bridging_Header_h` or includes a file that undefines it. -/
theorem processLines_keeps_guard (env : SearchPath)
    (hkeep : ∀ p f t c, env p = some f → f t = .ok c →
      isDefined t.macros FFmpeg_Bridging_Header_h = true →
      isDefined c.macros FFmpeg_Bridging_Header_h = true)
    (ls : List Line) :
    Line.undef FFmpeg_Bridging_Header_h ∉ ls →
    ∀ (st st' : PPState × List Bool), processLines env ls st = .ok st' →
      isDefined st.1.macros FFmpeg_Bridging_Header_h = true →
      isDefined st'.1.macros FFmpeg_Bridging_Header_h = true := by
  induction ls with
  | nil =>
    intro _ st st' h hg
    simp only [processLines, Except.ok.injEq] at h
    subst h
    exact hg
  | cons l ls ih =>
    intro hno st st' h hg
    simp only [processLines] at h
    cases e : step env st l with
    | error err => simp [e] at h
    | ok mid =>
      simp only [e] at h
      have hl : l ≠ Line.undef FFmpeg_Bridging_Header_h :=
        fun hl => hno (hl ▸ List.mem_cons_self _ _)
      exact ih (fun hm => hno (List.mem_cons_of_mem _ hm)) mid st' h
        (step_keeps_guard env hkeep l hl st mid e hg)

/-- A header given by its text leaves the guard defined, when its text has no
`#undef FFmpeg_Bridging_Header_h` line and no file it includes undefines the
guard. -/
theorem headerOfText_keeps_guard (env : SearchPath) (src : List String)
    (hkeep : ∀ p f t c, env p = some f → f t = .ok c →
      isDefined t.macros FFmpeg_Bridging_Header_h = true →
      isDefined c.macros FFmpeg_Bridging_Header_h = true)
    (hno : Line.undef FFmpeg_Bridging_Header_h ∉ parseFile src)
    (t : PPState) (c : Contribution) (h : headerOfText env src t = .ok c)
    (hg : isDefined t.macros FFmpeg_Bridging_Header_h = true) :
    isDefined c.macros FFmpeg_Bridging_Header_h = true := by
  unfold headerOfText processFile at h
  cases hp : processLines env (parseFile src) (t, []) with
  | error e => simp [hp] at h
  | ok st' =>
    obtain ⟨s', conds⟩ := st'
    have hs' := processLines_keeps_guard env hkeep (parseFile src) hno (t, []) (s', conds) hp hg
    cases conds with
    | nil =>
      simp only [hp, Except.ok.injEq] at h
      subst h
      exact hs'
    | cons b bs => simp [hp] at h

/-- Adding the guard at the end of the table changes no other macro. -/
theorem replacementOf_withGuard (s : PPState) (m : String)
    (hm : m ≠ FFmpeg_Bridging_Header_h) :
    replacementOf (withGuard s).macros m = replacementOf s.macros m := by
  have h1 : (FFmpeg_Bridging_Header_h == m) = false := by
    simpa using fun h => hm h.symm
  have hpred : (fun e : String × String =>
      decide ((e.1 != FFmpeg_Bridging_Header_h) = true ∧ (e.1 == m) = true))
      = fun e => e.1 == m := by
    funext e
    by_cases he : e.1 = m
    · have h2 : (e.1 != FFmpeg_Bridging_Header_h) = true := by
        simpa using fun h => hm (he.symm.trans h)
      have h3 : (e.1 == m) = true := by simpa using he
      rw [h2, h3]
      rfl
    · have h3 : (e.1 == m) = false := by simpa using he
      rw [h3]
      simp
  simp only [withGuard, replacementOf, defineMacro, List.find?_append, List.find?_filter,
    List.find?_cons, List.find?_nil, h1, Option.or_none, hpred]

/-! ## C6: guard already defined -/

/-- C6. If `FFmpeg_Bridging_Header_h` is already defined when the header is
processed (however it came to be defined), the header contributes nothing:
under every search path, also one on which no FFmpeg header exists, the
inclusion succeeds and returns the state unchanged, so no file is included, no
declaration becomes visible and the outcome does not depend on any lookup. -/
theorem guard_predefined_contributes_nothing (env : SearchPath) (s : PPState)
    (hg : isDefined s.macros FFmpeg_Bridging_Header_h = true) :
    includeBridgingHeader env s = .ok s ∧
      includeBridgingHeader emptySearchPath s = .ok s ∧
      ∀ s', includeBridgingHeader env s = .ok s' →
        s'.included = s.included ∧ s'.decls = s.decls ∧ s'.macros = s.macros := by
  refine ⟨include_guard_defined env s hg, include_guard_defined _ s hg, ?_⟩
  intro s' h
  rw [include_guard_defined env s hg] at h
  cases h
  exact ⟨rfl, rfl, rfl⟩

/-- C6 at a concrete input: the guard is defined from the command line and no
FFmpeg header is installed. -/
theorem guard_predefined_contributes_nothing_witness :
    isDefined guardDefinedState.macros FFmpeg_Bridging_Header_h = true ∧
      includeBridgingHeader emptySearchPath guardDefinedState = .ok guardDefinedState :=
  ⟨by decide, (guard_predefined_contributes_nothing emptySearchPath guardDefinedState
    (by decide)).1⟩

/-! ## C5: the header adds nothing of its own -/

/-- C5. The header holds no line of ordinary text (no type, structure,
enumeration, function or variable is declared), the only macro it defines is
`FFmpeg_Bridging_Header_h`, and it undefines none.  Whenever an inclusion
succeeds, either the state is unchanged, or the guard was added at the end of
the macro table and the four `#include` lines were processed from there.  In
both cases the text and the included files of the translation unit so far are
kept and only extended: every piece of text added is emitted by one of the
four FFmpeg headers, every file added is one of the four or entered by one of
them, and a macro other than the guard has another replacement text (or
another status) afterwards only if one of the four headers changed it. -/
theorem header_adds_only_guard (env : SearchPath) (s s' : PPState)
    (h : includeBridgingHeader env s = .ok s') :
    (∀ l ∈ bridgingHeader, ∀ t, l ≠ Line.text t) ∧
      (∀ m b, Line.define m b ∈ bridgingHeader → m = FFmpeg_Bridging_Header_h ∧ b = "") ∧
      (∀ m, Line.undef m ∉ bridgingHeader) ∧
      (s' = s ∨
        includeAll env ffmpegHeaders
          { s with macros := s.macros ++ [(FFmpeg_Bridging_Header_h, "")] } = .ok s') ∧
      ∃ newDecls newFiles,
        s'.decls = s.decls ++ newDecls ∧
        s'.included = s.included ++ newFiles ∧
        (∀ d ∈ newDecls, ∃ p ∈ ffmpegHeaders, ∃ f t c,
          env p = some f ∧ f t = .ok c ∧ d ∈ c.decls) ∧
        (∀ q ∈ newFiles, q ∈ ffmpegHeaders ∨
          ∃ p ∈ ffmpegHeaders, ∃ f t c, env p = some f ∧ f t = .ok c ∧ q ∈ c.included) ∧
        (∀ m, m ≠ FFmpeg_Bridging_Header_h →
          replacementOf s'.macros m = replacementOf s.macros m ∨
          ∃ p ∈ ffmpegHeaders, ∃ f t c, env p = some f ∧ f t = .ok c ∧
            replacementOf c.macros m ≠ replacementOf t.macros m) := by
  refine ⟨?_, ?_, ?_, ?_, ?_⟩
  · rw [bridgingHeader_lines]
    intro l hl t
    simp only [List.mem_cons, List.mem_singleton, List.not_mem_nil, or_false] at hl
    rcases hl with rfl | rfl | rfl | rfl | rfl | rfl | rfl | rfl | rfl | rfl <;> simp
  · rw [bridgingHeader_lines]
    intro m b hm
    simpa [FFmpeg_Bridging_Header_h] using hm
  · rw [bridgingHeader_lines]
    intro m hm
    simp at hm
  · cases hg : isDefined s.macros FFmpeg_Bridging_Header_h with
    | true =>
      rw [include_guard_defined env s hg] at h
      cases h
      exact Or.inl rfl
    | false =>
      rw [include_guard_undefined env s hg, withGuard_of_not_defined s hg] at h
      exact Or.inr h
  · cases hg : isDefined s.macros FFmpeg_Bridging_Header_h with
    | true =>
      rw [include_guard_defined env s hg] at h
      cases h
      exact ⟨[], [], by simp, by simp, by simp, by simp, fun m _ => Or.inl rfl⟩
    | false =>
      rw [include_guard_undefined env s hg] at h
      obtain ⟨nd, nf, hd, hi, hdsrc, hisrc, hmac⟩ :=
        includeAll_frame env ffmpegHeaders (withGuard s) s' h
      refine ⟨nd, nf, hd, hi, hdsrc, hisrc, ?_⟩
      intro m hm
      rcases hmac m with heq | hch
      · exact Or.inl (heq.trans (replacementOf_withGuard s m hm))
      · exact Or.inr hch

/-- C5 at a concrete input: a translation unit that already has a macro, a
declaration and an included file of its own keeps them across a first
inclusion. -/
theorem header_adds_only_guard_witness :
    includeBridgingHeader sampleSearchPath
        { macros := [("DEBUG", "1")], decls := ["int main(void);"], included := ["stdio.h"] } =
      .ok { macros := ("DEBUG", "1") :: sampleAfter.macros,
            decls := "int main(void);" :: sampleAfter.decls,
            included := "stdio.h" :: sampleAfter.included } ∧
      ∀ m b, Line.define m b ∈ bridgingHeader → m = FFmpeg_Bridging_Header_h ∧ b = "" :=
  ⟨rfl, (header_adds_only_guard sampleSearchPath
      { macros := [("DEBUG", "1")], decls := ["int main(void);"], included := ["stdio.h"] }
      { macros := ("DEBUG", "1") :: sampleAfter.macros,
        decls := "int main(void);" :: sampleAfter.decls,
        included := "stdio.h" :: sampleAfter.included } rfl).2.1⟩

/-! ## C3: missing headers -/

/-- C3 as stated fails: with the guard macro already defined and no FFmpeg
header on the search path, all four headers are unresolvable and the
inclusion still succeeds. -/
theorem missing_header_iff_failure_counterexample :
    (∀ p ∈ ffmpegHeaders, emptySearchPath p = none) ∧
      includeBridgingHeader emptySearchPath guardDefinedState = .ok guardDefinedState ∧
      ¬ (∀ (env : SearchPath) (s : PPState),
          (∃ e, includeBridgingHeader env s = .error e) ↔
            ∃ p ∈ ffmpegHeaders, env p = none) := by
  refine ⟨fun _ _ => rfl, rfl, ?_⟩
  intro h
  obtain ⟨e, he⟩ := (h emptySearchPath guardDefinedState).2
    ⟨"libavcodec/avcodec.h", by decide, rfl⟩
  have hok : includeBridgingHeader emptySearchPath guardDefinedState
      = .ok guardDefinedState := rfl
  rw [hok] at he
  cases he

/-- C3, amended. On a first inclusion (`FFmpeg_Bridging_Header_h` not
defined): if one of the four headers is not found, the inclusion fails.  The
only error the inclusion itself raises is a missing-header error, and it names
one of the four headers that is not found; every other failure is an error
raised inside one of the four headers that was found.  So when all four are
found the inclusion itself raises no error, and it succeeds when the headers
found are processed without error.  When the headers found are processed
without error, the inclusion fails if and only if at least one of the four
headers is not found, and the failure is then a missing-header error. -/
theorem first_inclusion_fails_iff_header_missing (env : SearchPath) (s : PPState)
    (hg : isDefined s.macros FFmpeg_Bridging_Header_h = false) :
    ((∃ p ∈ ffmpegHeaders, env p = none) → ∃ e, includeBridgingHeader env s = .error e) ∧
      (∀ p, includeBridgingHeader env s = .error (.missingHeader p) →
        p ∈ ffmpegHeaders ∧ env p = none) ∧
      (∀ e, includeBridgingHeader env s = .error e →
        ∃ p ∈ ffmpegHeaders, (e = .missingHeader p ∧ env p = none) ∨
          ∃ f t cause, env p = some f ∧ f t = .error cause ∧ e = .inIncluded p cause) ∧
      ((∀ p ∈ ffmpegHeaders, ∃ f, env p = some f ∧ ∀ t, ∃ c, f t = .ok c) →
        ∃ s', includeBridgingHeader env s = .ok s') ∧
      ((∀ p ∈ ffmpegHeaders, ∀ f, env p = some f → ∀ t, ∃ c, f t = .ok c) →
        ((∃ e, includeBridgingHeader env s = .error e) ↔
            ∃ p ∈ ffmpegHeaders, env p = none) ∧
          ∀ e, includeBridgingHeader env s = .error e →
            ∃ p ∈ ffmpegHeaders, e = .missingHeader p ∧ env p = none) := by
  rw [include_guard_undefined env s hg]
  have herr := includeAll_error env ffmpegHeaders (withGuard s)
  refine ⟨includeAll_of_missing env ffmpegHeaders (withGuard s), ?_, herr, ?_, ?_⟩
  · intro p hp
    obtain ⟨q, hq, hcase⟩ := herr _ hp
    rcases hcase with ⟨he, hnone⟩ | ⟨f, t, cause, _, _, he⟩
    · cases he
      exact ⟨hq, hnone⟩
    · cases he
  · intro hfound
    exact includeAll_ok_of_found env ffmpegHeaders hfound (withGuard s)
  · intro hfine
    have hmiss : ∀ e, includeAll env ffmpegHeaders (withGuard s) = .error e →
        ∃ p ∈ ffmpegHeaders, e = .missingHeader p ∧ env p = none := by
      intro e he
      obtain ⟨q, hq, hcase⟩ := herr e he
      rcases hcase with hm | ⟨f, t, cause, hf, hfail, _⟩
      · exact ⟨q, hq, hm⟩
      · obtain ⟨c, hc⟩ := hfine q hq f hf t
        rw [hc] at hfail
        cases hfail
    refine ⟨⟨?_, includeAll_of_missing env ffmpegHeaders (withGuard s)⟩, hmiss⟩
    rintro ⟨e, he⟩
    obtain ⟨p, hp, _, hnone⟩ := hmiss e he
    exact ⟨p, hp, hnone⟩

/-- C3 amended, at a concrete input: a first inclusion with no FFmpeg header
installed stops at the first `#include` line with a missing-header error. -/
theorem first_inclusion_fails_iff_header_missing_witness :
    isDefined emptyState.macros FFmpeg_Bridging_Header_h = false ∧
      includeBridgingHeader emptySearchPath emptyState
        = .error (.missingHeader "libavcodec/avcodec.h") ∧
      ("libavcodec/avcodec.h" ∈ ffmpegHeaders ∧ emptySearchPath "libavcodec/avcodec.h" = none) :=
  ⟨by decide, rfl,
    (first_inclusion_fails_iff_header_missing emptySearchPath emptyState (by decide)).2.1
      "libavcodec/avcodec.h" rfl⟩

/-! ## C1: double inclusion -/

/-- The headers on `emptySearchPath` leave the guard defined: there are none. -/
theorem emptySearchPath_keeps_guard :
    ∀ p f t c, emptySearchPath p = some f → f t = .ok c →
      isDefined t.macros FFmpeg_Bridging_Header_h = true →
      isDefined c.macros FFmpeg_Bridging_Header_h = true := by
  intro p f t c hf
  cases hf

/-- The header on `innerSearchPath` leaves the guard defined. -/
theorem innerSearchPath_keeps_guard :
    ∀ p f t c, innerSearchPath p = some f → f t = .ok c →
      isDefined t.macros FFmpeg_Bridging_Header_h = true →
      isDefined c.macros FFmpeg_Bridging_Header_h = true := by
  intro p f t c hf hc hg
  unfold innerSearchPath at hf
  split at hf
  · cases hf
    exact headerOfText_keeps_guard emptySearchPath avutilText emptySearchPath_keeps_guard
      (by decide) t c hc hg
  · cases hf

/-- The sample headers on `sampleSearchPath` leave the guard defined. -/
theorem sampleSearchPath_keeps_guard :
    ∀ p f t c, sampleSearchPath p = some f → f t = .ok c →
      isDefined t.macros FFmpeg_Bridging_Header_h = true →
      isDefined c.macros FFmpeg_Bridging_Header_h = true := by
  intro p f t c hf hc hg
  unfold sampleSearchPath at hf
  split at hf
  · cases hf
    exact headerOfText_keeps_guard innerSearchPath avcodecText innerSearchPath_keeps_guard
      (by decide) t c hc hg
  · split at hf
    · cases hf
      exact headerOfText_keeps_guard emptySearchPath avformatText emptySearchPath_keeps_guard
        (by decide) t c hc hg
    · split at hf
      · cases hf
        exact headerOfText_keeps_guard emptySearchPath avutilText emptySearchPath_keeps_guard
          (by decide) t c hc hg
      · split at hf
        · cases hf
          exact headerOfText_keeps_guard emptySearchPath swscaleText
            emptySearchPath_keeps_guard (by decide) t c hc hg
        · cases hf

/-- C1 as stated fails: after a first inclusion, the line
`#undef FFmpeg_Bridging_Header_h` removes the guard, and a second inclusion
then defines the guard again and processes all four `#include` lines again. -/
theorem double_inclusion_any_time_after_counterexample :
    includeBridgingHeader sampleSearchPath emptyState = .ok sampleAfter ∧
      classify "#undef FFmpeg_Bridging_Header_h" = Line.undef "FFmpeg_Bridging_Header_h" ∧
      processLines sampleSearchPath (parseFile ["#undef FFmpeg_Bridging_Header_h"])
        (sampleAfter, []) = .ok (sampleUndefined, []) ∧
      ∃ s3, includeBridgingHeader sampleSearchPath sampleUndefined = .ok s3 ∧
        s3.included = sampleUndefined.included ++
          ["libavcodec/avcodec.h", "libavformat/avformat.h", "libavutil/avutil.h",
           "libswscale/swscale.h"] ∧
        s3.macros = sampleUndefined.macros ++ [("FFmpeg_Bridging_Header_h", "")] ∧
        s3 ≠ sampleUndefined :=
  ⟨rfl, by decide, rfl,
    { macros := sampleUndefined.macros ++ [("FFmpeg_Bridging_Header_h", "")],
      decls := sampleUndefined.decls,
      included := sampleUndefined.included ++
        ["libavcodec/avcodec.h", "libavformat/avformat.h", "libavutil/avutil.h",
         "libswscale/swscale.h"] },
    rfl, rfl, rfl, by decide⟩

/-- C1, amended. A second processing of the header is a no-op whenever
`FFmpeg_Bridging_Header_h` is still defined at that point: at every state `s3`
in which the guard is defined, processing the header returns `s3` itself, so
no file is included, no macro defined, no text emitted and no error raised,
under any search path.  On a first inclusion the header defines the guard
before it processes any `#include` line.  So when a first processing succeeds
with state `s1`, no header found on the search path undefines the guard, and
the lines `mid` that follow hold no `#undef FFmpeg_Bridging_Header_h`, then
the guard is defined in `s1` and in the state `s2` reached after `mid`, a
second processing right after or after `mid` changes nothing, and processing
the header twice in a row gives the same result as processing it once. -/
theorem double_inclusion_is_single_inclusion (env env' : SearchPath) (s s1 s2 : PPState)
    (mid : List Line) (conds conds' : List Bool)
    (hfirst : includeBridgingHeader env s = .ok s1)
    (hkeep : ∀ p f t c, env p = some f → f t = .ok c →
      isDefined t.macros FFmpeg_Bridging_Header_h = true →
      isDefined c.macros FFmpeg_Bridging_Header_h = true)
    (hmid : processLines env mid (s1, conds) = .ok (s2, conds'))
    (hno : Line.undef FFmpeg_Bridging_Header_h ∉ mid) :
    (∀ s3 : PPState, isDefined s3.macros FFmpeg_Bridging_Header_h = true →
        includeBridgingHeader env' s3 = .ok s3) ∧
      (isDefined s.macros FFmpeg_Bridging_Header_h = false →
        isDefined (withGuard s).macros FFmpeg_Bridging_Header_h = true ∧
        includeBridgingHeader env s = includeAll env ffmpegHeaders (withGuard s)) ∧
      isDefined s1.macros FFmpeg_Bridging_Header_h = true ∧
      isDefined s2.macros FFmpeg_Bridging_Header_h = true ∧
      includeBridgingHeader env' s1 = .ok s1 ∧
      includeBridgingHeader env' s2 = .ok s2 ∧
      (includeBridgingHeader env s).bind (includeBridgingHeader env)
        = includeBridgingHeader env s := by
  have hg1 : isDefined s1.macros FFmpeg_Bridging_Header_h = true := by
    cases hg : isDefined s.macros FFmpeg_Bridging_Header_h with
    | true =>
      rw [include_guard_defined env s hg] at hfirst
      cases hfirst
      exact hg
    | false =>
      rw [include_guard_undefined env s hg] at hfirst
      exact includeAll_keeps_guard env ffmpegHeaders hkeep (withGuard s) s1 hfirst
        (withGuard_defined s)
  have hg2 : isDefined s2.macros FFmpeg_Bridging_Header_h = true :=
    processLines_keeps_guard env hkeep mid hno (s1, conds) (s2, conds') hmid hg1
  refine ⟨fun s3 hg3 => include_guard_defined env' s3 hg3,
    fun hg => ⟨withGuard_defined s, include_guard_undefined env s hg⟩,
    hg1, hg2, include_guard_defined env' s1 hg1, include_guard_defined env' s2 hg2, ?_⟩
  rw [hfirst]
  exact include_guard_defined env s1 hg1

/-- C1 amended, at a concrete input: the header is included from the empty
state with the four sample headers found, a declaration and a conditional
group follow, and the header is included again. -/
theorem double_inclusion_is_single_inclusion_witness :
    includeBridgingHeader sampleSearchPath emptyState = .ok sampleAfter ∧
      processLines sampleSearchPath sampleMid (sampleAfter, []) = .ok (sampleLater, [true]) ∧
      Line.undef FFmpeg_Bridging_Header_h ∉ sampleMid ∧
      isDefined sampleAfter.macros FFmpeg_Bridging_Header_h = true ∧
      isDefined sampleLater.macros FFmpeg_Bridging_Header_h = true ∧
      includeBridgingHeader emptySearchPath sampleAfter = .ok sampleAfter ∧
      includeBridgingHeader emptySearchPath sampleLater = .ok sampleLater ∧
      (includeBridgingHeader sampleSearchPath emptyState).bind
          (includeBridgingHeader sampleSearchPath)
        = includeBridgingHeader sampleSearchPath emptyState :=
  ⟨rfl, rfl, by decide,
    (double_inclusion_is_single_inclusion sampleSearchPath emptySearchPath emptyState
      sampleAfter sampleLater sampleMid [] [true] rfl sampleSearchPath_keeps_guard rfl
      (by decide)).2.2⟩

/-! ## C2: what a first inclusion brings in -/

/-- A run of `#include` lines outside any conditional group. -/
theorem processLines_plain_includes (env : SearchPath) (ps : List String) :
    ∀ s0 : PPState,
      processLines env (ps.map Line.includeAngle) (s0, []) =
        match includeAll env ps s0 with
        | .error e => .error e
        | .ok s' => .ok (s', []) := by
  induction ps with
  | nil => intro s0; rfl
  | cons p ps ih =>
    intro s0
    simp only [List.map_cons, processLines, step, active, List.all_nil, if_true, includeAll]
    cases includeHeader env p s0 with
    | error e => rfl
    | ok s1 => exact ih s1

/-- The line `#define FFmpeg_Bridging_Header_h` followed by `#include` lines,
written in place without any guard. -/
theorem plain_define_and_includes (env : SearchPath) (ps : List String) (s : PPState) :
    processFile env (Line.define "FFmpeg_Bridging_Header_h" "" :: ps.map Line.includeAngle) s =
      includeAll env ps (withGuard s) := by
  have hhead : processLines env
      (Line.define "FFmpeg_Bridging_Header_h" "" :: ps.map Line.includeAngle) (s, [])
      = processLines env (ps.map Line.includeAngle) (withGuard s, []) := rfl
  rw [processFile, hhead, processLines_plain_includes]
  cases includeAll env ps (withGuard s) <;> rfl

/-- C2 as stated fails.  On `clashSearchPath` all four headers are found and
the guard is not defined, yet the text of `libavutil/avutil.h`, which reads
`extern int FFmpeg_Bridging_Header_h;` when the header is included on its
own, comes out as `extern int ;`: the guard macro defined on line 2 is
replaced inside it.  On `failingSearchPath` all four headers are found as
well, but `libavcodec/avcodec.h` includes a file that is missing: the
inclusion stops there with a fatal error raised inside that header, and the
other three headers are never included. -/
theorem first_inclusion_passes_unchanged_counterexample :
    isDefined emptyState.macros FFmpeg_Bridging_Header_h = false ∧
      (∀ p ∈ ffmpegHeaders, (clashSearchPath p).isSome = true) ∧
      headerOfText emptySearchPath ["extern int FFmpeg_Bridging_Header_h;"] emptyState =
        .ok { macros := [], decls := ["extern int FFmpeg_Bridging_Header_h;"],
              included := [] } ∧
      (∃ sf, includeBridgingHeader clashSearchPath emptyState = .ok sf ∧
        "extern int FFmpeg_Bridging_Header_h;" ∉ sf.decls ∧
        "extern int ;" ∈ sf.decls) ∧
      (∀ p ∈ ffmpegHeaders, (failingSearchPath p).isSome = true) ∧
      includeBridgingHeader failingSearchPath emptyState =
        .error (.inIncluded "libavcodec/avcodec.h"
          (.missingHeader "libavutil/samplefmt.h")) := by
  refine ⟨by decide, ?_, rfl, ?_, ?_, rfl⟩
  · intro p hp
    simp only [ffmpegHeaders, List.mem_cons, List.mem_singleton, List.not_mem_nil,
      or_false] at hp
    rcases hp with rfl | rfl | rfl | rfl <;> rfl
  · exact ⟨{ macros := [("FFmpeg_Bridging_Header_h", ""), ("AVCODEC_AVCODEC_H", ""),
               ("AVUTIL_AVUTIL_H", ""), ("AVFORMAT_AVFORMAT_H", ""),
               ("SWSCALE_SWSCALE_H", "")],
             decls := ["typedef struct AVRational AVRational;",
               "typedef struct AVCodecContext AVCodecContext;",
               "typedef struct AVFormatContext AVFormatContext;", "extern int ;",
               "struct SwsContext;"],
             included := ["libavcodec/avcodec.h", "libavutil/avutil.h",
               "libavformat/avformat.h", "libavutil/avutil.h", "libswscale/swscale.h"] },
      rfl, by decide, by decide⟩
  · intro p hp
    simp only [ffmpegHeaders, List.mem_cons, List.mem_singleton, List.not_mem_nil,
      or_false] at hp
    rcases hp with rfl | rfl | rfl | rfl <;> rfl

/-- C2, amended. On a first inclusion (`FFmpeg_Bridging_Header_h` not
defined) the header adds the guard, with an empty replacement text, at the end
of the macro table and then processes `#include` of `libavcodec/avcodec.h`,
`libavformat/avformat.h`, `libavutil/avutil.h` and `libswscale/swscale.h`, in
this order: it behaves exactly like the line `#define FFmpeg_Bridging_Header_h`
followed by the four `#include` lines written in place.  Each header is
processed in the state reached at its `#include` line.  When all four are
found and processed without error there, the inclusion succeeds; the files
entered are the four, once each and in order, each followed by the files that
header entered itself, and no other file; the text the four headers emitted is
appended to the text so far, in order, with nothing added, dropped or changed
in it; and the macro table is the one the last header leaves. -/
theorem first_inclusion_includes_exactly_four (env : SearchPath) (s : PPState)
    (f1 f2 f3 f4 : HeaderFile) (c1 c2 c3 c4 : Contribution)
    (hg : isDefined s.macros FFmpeg_Bridging_Header_h = false)
    (e1 : env "libavcodec/avcodec.h" = some f1)
    (e2 : env "libavformat/avformat.h" = some f2)
    (e3 : env "libavutil/avutil.h" = some f3)
    (e4 : env "libswscale/swscale.h" = some f4)
    (r1 : f1 (withGuard s) = .ok c1)
    (r2 : f2 (enter (withGuard s) "libavcodec/avcodec.h" c1) = .ok c2)
    (r3 : f3 (enter (enter (withGuard s) "libavcodec/avcodec.h" c1)
        "libavformat/avformat.h" c2) = .ok c3)
    (r4 : f4 (enter (enter (enter (withGuard s) "libavcodec/avcodec.h" c1)
        "libavformat/avformat.h" c2) "libavutil/avutil.h" c3) = .ok c4) :
    withGuard s = { s with macros := s.macros ++ [(FFmpeg_Bridging_Header_h, "")] } ∧
      includeBridgingHeader env s =
        processFile env
          [ Line.define "FFmpeg_Bridging_Header_h" "",
            Line.includeAngle "libavcodec/avcodec.h",
            Line.includeAngle "libavformat/avformat.h",
            Line.includeAngle "libavutil/avutil.h",
            Line.includeAngle "libswscale/swscale.h" ] s ∧
      ∃ s', includeBridgingHeader env s = .ok s' ∧
        s'.included = s.included
          ++ "libavcodec/avcodec.h" :: c1.included
          ++ "libavformat/avformat.h" :: c2.included
          ++ "libavutil/avutil.h" :: c3.included
          ++ "libswscale/swscale.h" :: c4.included ∧
        s'.decls = s.decls ++ c1.decls ++ c2.decls ++ c3.decls ++ c4.decls ∧
        s'.macros = c4.macros ∧
        (∀ d, d ∈ c1.decls ∨ d ∈ c2.decls ∨ d ∈ c3.decls ∨ d ∈ c4.decls → d ∈ s'.decls) ∧
        (∀ d, d ∈ s'.decls →
          d ∈ s.decls ∨ d ∈ c1.decls ∨ d ∈ c2.decls ∨ d ∈ c3.decls ∨ d ∈ c4.decls) := by
  refine ⟨withGuard_of_not_defined s hg, ?_, ?_⟩
  · rw [include_guard_undefined env s hg]
    exact (plain_define_and_includes env ffmpegHeaders s).symm
  · refine ⟨enter (enter (enter (enter (withGuard s) "libavcodec/avcodec.h" c1)
        "libavformat/avformat.h" c2) "libavutil/avutil.h" c3) "libswscale/swscale.h" c4,
      ?_, ?_, ?_, rfl, ?_, ?_⟩
    · rw [include_guard_undefined env s hg]
      simp [includeAll, ffmpegHeaders, includeHeader, e1, e2, e3, e4, r1, r2, r3, r4]
    · simp [enter, withGuard]
    · simp [enter, withGuard]
    · intro d hd
      simp only [enter, withGuard, List.mem_append]
      tauto
    · intro d hd
      simp only [enter, withGuard, List.mem_append] at hd
      tauto

/-- C2 amended, at a concrete input: a first inclusion from the empty state
with the four sample headers found. -/
theorem first_inclusion_includes_exactly_four_witness :
    ∃ s', includeBridgingHeader sampleSearchPath emptyState = .ok s' ∧
      s'.included = ["libavcodec/avcodec.h", "libavutil/avutil.h", "libavformat/avformat.h",
        "libavutil/avutil.h", "libswscale/swscale.h"] ∧
      s'.decls = ["typedef struct AVRational AVRational;",
        "typedef struct AVCodecContext AVCodecContext;",
        "typedef struct AVFormatContext AVFormatContext;", "struct SwsContext;"] := by
  obtain ⟨_, _, s', hs, hi, hd, _⟩ :=
    first_inclusion_includes_exactly_four sampleSearchPath emptyState
      (headerOfText innerSearchPath avcodecText) (headerOfText emptySearchPath avformatText)
      (headerOfText emptySearchPath avutilText) (headerOfText emptySearchPath swscaleText)
      { macros := [("FFmpeg_Bridging_Header_h", ""), ("AVCODEC_AVCODEC_H", ""),
          ("AVUTIL_AVUTIL_H", "")],
        decls := ["typedef struct AVRational AVRational;",
          "typedef struct AVCodecContext AVCodecContext;"],
        included := ["libavutil/avutil.h"] }
      { macros := [("FFmpeg_Bridging_Header_h", ""), ("AVCODEC_AVCODEC_H", ""),
          ("AVUTIL_AVUTIL_H", ""), ("AVFORMAT_AVFORMAT_H", "")],
        decls := ["typedef struct AVFormatContext AVFormatContext;"],
        included := [] }
      { macros := [("FFmpeg_Bridging_Header_h", ""), ("AVCODEC_AVCODEC_H", ""),
          ("AVUTIL_AVUTIL_H", ""), ("AVFORMAT_AVFORMAT_H", "")],
        decls := [],
        included := [] }
      { macros := [("FFmpeg_Bridging_Header_h", ""), ("AVCODEC_AVCODEC_H", ""),
          ("AVUTIL_AVUTIL_H", ""), ("AVFORMAT_AVFORMAT_H", ""), ("SWSCALE_SWSCALE_H", "")],
        decls := ["struct SwsContext;"],
        included := [] }
      (by decide) rfl rfl rfl rfl rfl rfl rfl rfl
  exact ⟨s', hs, hi, hd⟩

/-! ## C4: removing one `#include` line -/

end Channer
